import Mathlib

/-!
# Project Veloce: contact-form validation, local recorder and access gate

A shallow embedding of `src/validation.js` and `src/pass.js`.

* A JavaScript string is the list of its UTF-16 code units, so `.length` is
  `List.length` and a regular expression without the `u` flag consumes one
  list element per step.
* `String.prototype.trim` and the class `\s` use the ECMAScript set
  WhiteSpace ∪ LineTerminator.
* The two regular-expression literals are kept as regular-expression terms and
  run by a derivative matcher; both literals are anchored with `^` and `$`, so
  `RegExp.prototype.test` is a whole-string match of the body.
* The page provides the controls `name`, `email`, `subject`, `message`, the
  form `contactForm` and the elements of the login modal, so the lookups
  `document.getElementById` of them succeed; the error element of a field may
  be absent.
* The state is passed explicitly: the four controls, the global
  `storedCredentials`, the storage entry `veloceCredentials`, and a trace of
  the calls `alert`, `localStorage.setItem` and `reset`. `console.log` and
  `event.preventDefault()` do not touch this state.
* `JSON.parse` and `JSON.stringify` belong to the browser and are a parameter
  of the model; `new Date().toLocaleString()` is an argument of
  `handleFormSubmit`.
* `storedCredentials` holds whatever `JSON.parse` returned: an array, whose
  elements are contact records or other JSON values, or a JSON value that is
  not an array (`null`, `5`, an object), on which `push` throws. The values
  the script never looks into form the type parameter `Other`.
-/

namespace Veloce

/-! ## Strings -/

/-- A JavaScript string: its UTF-16 code units. -/
abbrev JSString := List Nat

/-- UTF-16 encoding of one Unicode scalar value. -/
def utf16 (c : Char) : List Nat :=
  if c.toNat < 0x10000 then [c.toNat]
  else [0xD800 + (c.toNat - 0x10000) / 0x400, 0xDC00 + (c.toNat - 0x10000) % 0x400]

/-- The JavaScript string denoted by a source literal. -/
def lit (s : String) : JSString := s.toList.flatMap utf16

/-- ECMAScript WhiteSpace ∪ LineTerminator: what `trim` strips and `\s` matches. -/
def isWhiteSpace (c : Nat) : Bool :=
  c == 0x09 || c == 0x0A || c == 0x0B || c == 0x0C || c == 0x0D || c == 0x20 ||
  c == 0xA0 || c == 0x1680 || (0x2000 ≤ c && c ≤ 0x200A) || c == 0x2028 ||
  c == 0x2029 || c == 0x202F || c == 0x205F || c == 0x3000 || c == 0xFEFF

/-- The method `String.prototype.trim`. -/
def trim (s : JSString) : JSString :=
  (s.dropWhile isWhiteSpace).rdropWhile isWhiteSpace

/-! ## Regular expressions -/

/-- Regular-expression bodies: character classes, sequence, alternation, star. -/
inductive Regex where
  | empty : Regex
  | eps : Regex
  | cls (p : Nat → Bool) : Regex
  | alt (a b : Regex) : Regex
  | cat (a b : Regex) : Regex
  | star (a : Regex) : Regex

namespace Regex

/-- The quantifier `+`: one or more. -/
def plus (r : Regex) : Regex := cat r (star r)

/-- Does the expression accept the empty string. -/
def nullable : Regex → Bool
  | empty => false
  | eps => true
  | cls _ => false
  | alt a b => nullable a || nullable b
  | cat a b => nullable a && nullable b
  | star _ => true

/-- Brzozowski derivative with respect to one code unit. -/
def deriv : Regex → Nat → Regex
  | empty, _ => empty
  | eps, _ => empty
  | cls p, c => if p c then eps else empty
  | alt a b, c => alt (deriv a c) (deriv b c)
  | cat a b, c =>
      if nullable a then alt (cat (deriv a c) b) (deriv b c) else cat (deriv a c) b
  | star a, c => cat (deriv a c) (star a)

/-- Whole-string match: `/^body$/.test(s)`. -/
def test (body : Regex) (s : JSString) : Bool :=
  nullable (s.foldl deriv body)

/-- The strings an expression denotes. -/
def Lang : Regex → List Nat → Prop
  | empty, _ => False
  | eps, s => s = []
  | cls p, s => ∃ c, s = [c] ∧ p c = true
  | alt a b, s => Lang a s ∨ Lang b s
  | cat a b, s => ∃ u v, s = u ++ v ∧ Lang a u ∧ Lang b v
  | star a, s => ∃ L : List (List Nat), s = L.flatten ∧ ∀ u ∈ L, Lang a u

end Regex

/-- The ranges `a-z` and `A-Z`. -/
def isLetter (c : Nat) : Bool :=
  (0x61 ≤ c && c ≤ 0x7A) || (0x41 ≤ c && c ≤ 0x5A)

/-- The class `[a-zA-Z\s]`. -/
def isLetterOrSpace (c : Nat) : Bool :=
  isLetter c || isWhiteSpace c

/-- The class `[^\s@]`. -/
def notSpaceOrAt (c : Nat) : Bool :=
  !(isWhiteSpace c || c == 0x40)

/-- Body of `/^[a-zA-Z\s]*$/`. -/
def nameRegex : Regex := .star (.cls isLetterOrSpace)

/-- Body of `/^[^\s@]+@[^\s@]+\.[^\s@]+$/`. -/
def emailRegex : Regex :=
  .cat (.plus (.cls notSpaceOrAt))
    (.cat (.cls (fun c => c == 0x40))
      (.cat (.plus (.cls notSpaceOrAt))
        (.cat (.cls (fun c => c == 0x2E))
          (.plus (.cls notSpaceOrAt)))))

/-! ## Field validators -/

/-- The object `{ valid, message }` returned by a validator. -/
structure ValidationResult where
  valid : Bool
  message : JSString
deriving DecidableEq, Repr

/-- The function `validateName(name)`. -/
def validateName (name : JSString) : ValidationResult :=
  let trimmed := trim name
  if trimmed = [] then
    { valid := false, message := lit "Name is required" }
  else if trimmed.length < 2 then
    { valid := false, message := lit "Name must be at least 2 characters" }
  else if !(nameRegex.test trimmed) then
    { valid := false, message := lit "Name can only contain letters and spaces" }
  else
    { valid := true, message := lit "" }

/-- The function `validateEmail(email)`. -/
def validateEmail (email : JSString) : ValidationResult :=
  let trimmed := trim email
  if trimmed = [] then
    { valid := false, message := lit "Email is required" }
  else if !(emailRegex.test trimmed) then
    { valid := false, message := lit "Please enter a valid email address" }
  else
    { valid := true, message := lit "" }

/-- The function `validateSubject(subject)`. -/
def validateSubject (subject : JSString) : ValidationResult :=
  let trimmed := trim subject
  if trimmed = [] then
    { valid := false, message := lit "Subject is required" }
  else if trimmed.length < 3 then
    { valid := false, message := lit "Subject must be at least 3 characters" }
  else
    { valid := true, message := lit "" }

/-- The function `validateMessage(message)`. -/
def validateMessage (message : JSString) : ValidationResult :=
  let trimmed := trim message
  if trimmed = [] then
    { valid := false, message := lit "Message is required" }
  else if trimmed.length < 10 then
    { valid := false, message := lit "Message must be at least 10 characters" }
  else
    { valid := true, message := lit "" }

/-! ## Page state of the contact form -/

/-- The inline error element `<span id="<field>-error">`. -/
structure ErrorSpan where
  textContent : JSString
  color : JSString
  fontSize : JSString
  display : JSString
  marginTop : JSString
deriving DecidableEq, Repr

/-- One form control with what the script reads and writes around it: its
value, the value `form.reset()` restores, the inline border style, and the
element `document.getElementById(fieldId + '-error')` when it exists. -/
structure Field where
  value : JSString
  defaultValue : JSString
  borderColor : JSString
  borderWidth : JSString
  errorSpan : Option ErrorSpan
deriving DecidableEq, Repr

/-- The four field identifiers the page provides. -/
inductive FieldId where
  | name | email | subject | message
deriving DecidableEq, Repr

/-- The object pushed on a successful submission. -/
structure ContactRecord where
  name : JSString
  email : JSString
  subject : JSString
  message : JSString
  timestamp : JSString
deriving DecidableEq, Repr

/-- Calls that leave the script: `alert`, `localStorage.setItem` on the entry
`veloceCredentials`, and `reset` on the form. -/
inductive Effect where
  | alert (text : JSString)
  | setItem (value : JSString)
  | reset
deriving DecidableEq, Repr

/-- One element of an array held in `storedCredentials`: a contact record, or
another JSON value that `JSON.parse` found in the stored text. The script
never looks into the latter; `Other` is the type of such values (null,
booleans, numbers, strings, objects of another shape, nested arrays). -/
inductive Element (Other : Type) where
  | record (r : ContactRecord)
  | other (v : Other)
deriving DecidableEq, Repr

/-- A value of the global `storedCredentials`: an array, on which `push`
works, or a JSON value that is not an array, on which `push` throws. It starts
as the empty array and is replaced by whatever `JSON.parse` returns. -/
inductive Stored (Other : Type) where
  | array (xs : List (Element Other))
  | other (v : Other)
deriving DecidableEq, Repr

/-- What `validation.js` sees: the four controls, the global
`storedCredentials`, the storage entry `veloceCredentials` (`none` when
`getItem` returns `null`), and the trace of outgoing calls. -/
structure Page (Other : Type) where
  name : Field
  email : Field
  subject : Field
  message : Field
  storedCredentials : Stored Other
  localStorage : Option JSString
  trace : List Effect
deriving DecidableEq, Repr

/-- The browser's `JSON.parse` and `JSON.stringify`; `parse` answers `none`
where `JSON.parse` throws a `SyntaxError`, and otherwise the value read,
whatever its shape. -/
structure JSON (Other : Type) where
  parse : JSString → Option (Stored Other)
  stringify : Stored Other → JSString

variable {Other : Type}

/-- The lookup `document.getElementById(fieldId)` of one of the four controls. -/
def Page.get (pg : Page Other) : FieldId → Field
  | .name => pg.name
  | .email => pg.email
  | .subject => pg.subject
  | .message => pg.message

/-- Write one control back. -/
def Page.set (pg : Page Other) (f : FieldId) (x : Field) : Page Other :=
  match f with
  | .name => { pg with name := x }
  | .email => { pg with email := x }
  | .subject => { pg with subject := x }
  | .message => { pg with message := x }

/-- A run of a function of the script: the state it leaves, and whether it
ended in an uncaught exception. -/
structure Run (Other : Type) where
  page : Page Other
  fault : Bool
deriving DecidableEq, Repr

/-- The function `loadCredentialsFromStorage()`: `if (stored)` skips `null` and the empty
string; `JSON.parse` is not guarded. -/
def loadCredentialsFromStorage (J : JSON Other) (pg : Page Other) : Run Other :=
  match pg.localStorage with
  | none => { page := pg, fault := false }
  | some stored =>
    if stored = [] then { page := pg, fault := false }
    else
      match J.parse stored with
      | none => { page := pg, fault := true }
      | some v => { page := { pg with storedCredentials := v }, fault := false }

/-- The function `saveCredentialsToStorage()`. -/
def saveCredentialsToStorage (J : JSON Other) (pg : Page Other) : Page Other :=
  { pg with
    localStorage := some (J.stringify pg.storedCredentials)
    trace := pg.trace ++ [.setItem (J.stringify pg.storedCredentials)] }

/-- The function `showError(fieldId, message)`. -/
def showError (fieldId : FieldId) (message : JSString) (pg : Page Other) : Page Other :=
  let field := pg.get fieldId
  let errorSpan : ErrorSpan :=
    match field.errorSpan with
    | some e => e
    | none =>
      { textContent := lit "", color := lit "rgb(255, 84, 89)", fontSize := lit "12px",
        display := lit "block", marginTop := lit "4px" }
  pg.set fieldId
    { field with
      errorSpan := some { errorSpan with textContent := message }
      borderColor := lit "rgb(255, 84, 89)"
      borderWidth := lit "2px" }

/-- The function `clearError(fieldId)`. -/
def clearError (fieldId : FieldId) (pg : Page Other) : Page Other :=
  let field := pg.get fieldId
  pg.set fieldId
    { field with
      errorSpan := field.errorSpan.map (fun e => { e with textContent := lit "" })
      borderColor := lit ""
      borderWidth := lit "" }

/-- The call `document.getElementById('contactForm').reset()`: every control of the
form returns to its default value. -/
def formReset (pg : Page Other) : Page Other :=
  { pg with
    name := { pg.name with value := pg.name.defaultValue }
    email := { pg.email with value := pg.email.defaultValue }
    subject := { pg.subject with value := pg.subject.defaultValue }
    message := { pg.message with value := pg.message.defaultValue }
    trace := pg.trace ++ [.reset] }

/-- The text of the success `alert`. -/
def successText (credential : ContactRecord) : JSString :=
  lit "✅ Form submitted successfully!\n\nName: " ++ credential.name ++ lit "\nEmail: " ++
    credential.email ++ lit "\n\nCredentials stored at client-side."

/-- The function `handleFormSubmit(event)`; `now` is `new Date().toLocaleString()`.
On a value that is not an array `storedCredentials.push` throws a `TypeError`,
after the error displays were updated and before anything is saved. -/
def handleFormSubmit (J : JSON Other) (now : JSString) (pg : Page Other) : Run Other :=
  let nameValidation := validateName pg.name.value
  let emailValidation := validateEmail pg.email.value
  let subjectValidation := validateSubject pg.subject.value
  let messageValidation := validateMessage pg.message.value
  let pg := clearError .name pg
  let pg := clearError .email pg
  let pg := clearError .subject pg
  let pg := clearError .message pg
  let isValid := true
  let (pg, isValid) :=
    if !nameValidation.valid then (showError .name nameValidation.message pg, false)
    else (pg, isValid)
  let (pg, isValid) :=
    if !emailValidation.valid then (showError .email emailValidation.message pg, false)
    else (pg, isValid)
  let (pg, isValid) :=
    if !subjectValidation.valid then (showError .subject subjectValidation.message pg, false)
    else (pg, isValid)
  let (pg, isValid) :=
    if !messageValidation.valid then (showError .message messageValidation.message pg, false)
    else (pg, isValid)
  if isValid then
    let credential : ContactRecord :=
      { name := trim pg.name.value
        email := trim pg.email.value
        subject := trim pg.subject.value
        message := trim pg.message.value
        timestamp := now }
    match pg.storedCredentials with
    | .array xs =>
      let pg := { pg with storedCredentials := .array (xs ++ [.record credential]) }
      let pg := saveCredentialsToStorage J pg
      let pg := { pg with trace := pg.trace ++ [.alert (successText credential)] }
      { page := formReset pg, fault := false }
    | .other _ => { page := pg, fault := true }
  else { page := pg, fault := false }

/-- The validator `handleFormSubmit` runs on a field. -/
def validatorOf : FieldId → JSString → ValidationResult
  | .name => validateName
  | .email => validateEmail
  | .subject => validateSubject
  | .message => validateMessage

/-- The `input` listener `setupRealtimeValidation` attaches to a field, run
after the user changed the field's value to `v`. -/
def realtimeValidation (f : FieldId) (v : JSString) (pg : Page Other) : Page Other :=
  let pg := pg.set f { pg.get f with value := v }
  if trim v ≠ [] then
    if (validatorOf f v).valid then clearError f pg else pg
  else pg

/-! ## Page state of the access gate -/

/-- The constant `ADMIN_PASSWORD`. -/
def ADMIN_PASSWORD : JSString := lit "veloce"

/-- What `pass.js` sees: the password input, the modal's inline `display`,
the class list of the content region, and the error element. -/
structure LoginPage where
  passwordValue : JSString
  passwordType : JSString
  modalDisplay : JSString
  contentClasses : List JSString
  errorText : JSString
  errorDisplay : JSString
deriving DecidableEq, Repr

/-- The function `handleLogin(event)`. -/
def handleLogin (pg : LoginPage) : LoginPage :=
  let enteredPassword := trim pg.passwordValue
  if enteredPassword = ADMIN_PASSWORD then
    { pg with
      modalDisplay := lit "none"
      contentClasses := pg.contentClasses.filter (fun c => c ≠ lit "locked")
      errorDisplay := lit "none" }
  else
    { pg with
      errorText := lit "❌ Incorrect password"
      errorDisplay := lit "block" }

/-- The function `togglePasswordVisibility()`. -/
def togglePasswordVisibility (pg : LoginPage) : LoginPage :=
  { pg with
    passwordType := if pg.passwordType = lit "password" then lit "text" else lit "password" }

/-! ## A concrete JSON

A `JSON` whose only value besides records and arrays is `null`: the texts
`JSON.stringify` emits for `null` and for an array of records and nulls, and a
reader of exactly those texts. The reader answers `none` on every other text,
so it agrees with `JSON.parse` on the emitted texts and on texts that are not
JSON; it is used to instantiate the `JSON` parameter at concrete inputs. -/

/-- The value `null`. -/
inductive Null where
  | null
deriving DecidableEq, Repr

/-- Lower-case hexadecimal digit of a value below 16. -/
def hexDigit (n : Nat) : Nat :=
  if n < 10 then 0x30 + n else 0x61 + (n - 10)

/-- Value of a hexadecimal digit, either case. -/
def hexVal (c : Nat) : Option Nat :=
  if 0x30 ≤ c ∧ c ≤ 0x39 then some (c - 0x30)
  else if 0x61 ≤ c ∧ c ≤ 0x66 then some (c - 0x61 + 10)
  else if 0x41 ≤ c ∧ c ≤ 0x46 then some (c - 0x41 + 10)
  else none

/-- The escape `\uXXXX` of a code unit. -/
def unicodeEscape (c : Nat) : JSString :=
  [0x5C, 0x75, hexDigit (c / 4096 % 16), hexDigit (c / 256 % 16), hexDigit (c / 16 % 16),
    hexDigit (c % 16)]

/-- Is the code unit a surrogate. -/
def isSurrogate (c : Nat) : Bool := 0xD800 ≤ c && c ≤ 0xDFFF

/-- Is the pair a leading surrogate followed by a trailing one. -/
def isPair (c d : Nat) : Bool := 0xD800 ≤ c && c ≤ 0xDBFF && 0xDC00 ≤ d && d ≤ 0xDFFF

/-- The step of `QuoteJSONString` on one code unit that is not part of a surrogate pair. -/
def quoteUnit (c : Nat) : JSString :=
  if c = 0x08 then [0x5C, 0x62]
  else if c = 0x09 then [0x5C, 0x74]
  else if c = 0x0A then [0x5C, 0x6E]
  else if c = 0x0C then [0x5C, 0x66]
  else if c = 0x0D then [0x5C, 0x72]
  else if c = 0x22 then [0x5C, 0x22]
  else if c = 0x5C then [0x5C, 0x5C]
  else if c < 0x20 || isSurrogate c then unicodeEscape c
  else [c]

/-- The text between the quotes of `QuoteJSONString`. -/
def quoteBody : JSString → JSString
  | [] => []
  | [c] => quoteUnit c
  | c :: d :: rest =>
    if isPair c d then c :: d :: quoteBody rest else quoteUnit c ++ quoteBody (d :: rest)

/-- The operation `QuoteJSONString`. -/
def quoteJSONString (s : JSString) : JSString :=
  0x22 :: (quoteBody s ++ [0x22])

/-- The code unit a single-character escape stands for. -/
def unescape (e : Nat) : Option Nat :=
  if e = 0x22 then some 0x22
  else if e = 0x5C then some 0x5C
  else if e = 0x2F then some 0x2F
  else if e = 0x62 then some 0x08
  else if e = 0x66 then some 0x0C
  else if e = 0x6E then some 0x0A
  else if e = 0x72 then some 0x0D
  else if e = 0x74 then some 0x09
  else none

/-- Read a JSON string after its opening quote: the string and the rest. -/
def parseStringBody : JSString → Option (JSString × JSString)
  | [] => none
  | c :: rest =>
    if c = 0x22 then some ([], rest)
    else if c = 0x5C then
      match rest with
      | [] => none
      | e :: rest1 =>
        if e = 0x75 then
          match rest1 with
          | h3 :: h2 :: h1 :: h0 :: rest2 =>
            match hexVal h3, hexVal h2, hexVal h1, hexVal h0 with
            | some x3, some x2, some x1, some x0 =>
              (parseStringBody rest2).map
                (fun r => ((4096 * x3 + 256 * x2 + 16 * x1 + x0) :: r.1, r.2))
            | _, _, _, _ => none
          | _ => none
        else
          match unescape e with
          | some u => (parseStringBody rest1).map (fun r => (u :: r.1, r.2))
          | none => none
    else if c < 0x20 then none
    else (parseStringBody rest).map (fun r => (c :: r.1, r.2))

/-- Read a JSON string: the string and the rest. -/
def parseString : JSString → Option (JSString × JSString)
  | [] => none
  | c :: rest => if c = 0x22 then parseStringBody rest else none

/-- Read a fixed token: the rest. -/
def expect : JSString → JSString → Option JSString
  | [], s => some s
  | _ :: _, [] => none
  | t :: ts, c :: s => if t = c then expect ts s else none

/-- Read `key` then a string. -/
def parseMember (key : JSString) (s : JSString) : Option (JSString × JSString) :=
  (expect key s).bind parseString

/-- The text `JSON.stringify` emits for one record. -/
def stringifyRecord (r : ContactRecord) : JSString :=
  lit "\x7b\"name\":" ++ quoteJSONString r.name ++ lit ",\"email\":" ++ quoteJSONString r.email ++
    lit ",\"subject\":" ++ quoteJSONString r.subject ++ lit ",\"message\":" ++
    quoteJSONString r.message ++ lit ",\"timestamp\":" ++ quoteJSONString r.timestamp ++ lit "\x7d"

/-- Read one record: the record and the rest. -/
def parseRecord (s : JSString) : Option (ContactRecord × JSString) :=
  (parseMember (lit "\x7b\"name\":") s).bind fun n =>
  (parseMember (lit ",\"email\":") n.2).bind fun e =>
  (parseMember (lit ",\"subject\":") e.2).bind fun u =>
  (parseMember (lit ",\"message\":") u.2).bind fun m =>
  (parseMember (lit ",\"timestamp\":") m.2).bind fun t =>
  (expect (lit "\x7d") t.2).map fun rest =>
    ({ name := n.1, email := e.1, subject := u.1, message := m.1, timestamp := t.1 }, rest)

/-- The text `JSON.stringify` emits for one element. -/
def stringifyElement : Element Null → JSString
  | .record r => stringifyRecord r
  | .other .null => lit "null"

/-- Read one element, a record or `null`: the element and the rest. -/
def parseElement (s : JSString) : Option (Element Null × JSString) :=
  match parseRecord s with
  | some r => some (.record r.1, r.2)
  | none => (expect (lit "null") s).map fun rest => (.other .null, rest)

/-- The elements of an array separated by commas, then the closing bracket. -/
def stringifyItems : List (Element Null) → JSString
  | [] => lit "]"
  | [r] => stringifyElement r ++ lit "]"
  | r :: r2 :: rs => stringifyElement r ++ lit "," ++ stringifyItems (r2 :: rs)

/-- The text `JSON.stringify` emits for an array. -/
def stringifyArray (xs : List (Element Null)) : JSString :=
  lit "[" ++ stringifyItems xs

/-- Read elements up to the closing bracket; one unit of fuel per element. -/
def parseItems : Nat → JSString → Option (List (Element Null) × JSString)
  | 0, _ => none
  | fuel + 1, s =>
    (parseElement s).bind fun r =>
      match r.2 with
      | [] => none
      | c :: rest =>
        if c = 0x5D then some ([r.1], rest)
        else if c = 0x2C then (parseItems fuel rest).map (fun q => (r.1 :: q.1, q.2))
        else none

/-- Read an array that fills the whole text. -/
def parseArray (s : JSString) : Option (List (Element Null)) :=
  match s with
  | [] => none
  | c :: rest =>
    if c = 0x5B then
      if rest = [0x5D] then some []
      else
        match parseItems rest.length rest with
        | some (xs, []) => some xs
        | _ => none
    else none

/-- The text `JSON.stringify` emits for a value. -/
def stringifyValue : Stored Null → JSString
  | .array xs => stringifyArray xs
  | .other .null => lit "null"

/-- Read a value that fills the whole text. -/
def parseValue (s : JSString) : Option (Stored Null) :=
  if s = lit "null" then some (.other .null) else (parseArray s).map .array

/-- The JSON of the canonical texts. -/
def canonicalJSON : JSON Null :=
  { parse := parseValue, stringify := stringifyValue }

/-- Did all four validators pass on the current field values. -/
def allValid (pg : Page Other) : Bool :=
  (validateName pg.name.value).valid && (validateEmail pg.email.value).valid &&
    (validateSubject pg.subject.value).valid && (validateMessage pg.message.value).valid

/-- The record made of the trimmed field values and a timestamp. -/
def recordOf (now : JSString) (pg : Page Other) : ContactRecord :=
  { name := trim pg.name.value
    email := trim pg.email.value
    subject := trim pg.subject.value
    message := trim pg.message.value
    timestamp := now }

/-- The error styling `showError` applies to a control. -/
def HasErrorStyle (x : Field) : Prop :=
  x.borderColor = lit "rgb(255, 84, 89)" ∧ x.borderWidth = lit "2px"

/-- The control carries no inline border colour or width. -/
def NoErrorStyle (x : Field) : Prop :=
  x.borderColor = lit "" ∧ x.borderWidth = lit ""

/-- The error text shown next to a control: empty when the error element is
absent or blank. -/
def errorText (x : Field) : JSString :=
  match x.errorSpan with
  | some e => e.textContent
  | none => lit ""

/-- One of the four `if (!v.valid) { showError(...) }` statements. -/
def showIfInvalid (f : FieldId) (v : ValidationResult) (pg : Page Other) : Page Other :=
  if v.valid then pg else showError f v.message pg

/-- The page after the display part of `handleFormSubmit`: four `clearError`
calls, then `showError` for each failed validator. -/
def displayed (pg : Page Other) : Page Other :=
  showIfInvalid .message (validateMessage pg.message.value)
    (showIfInvalid .subject (validateSubject pg.subject.value)
      (showIfInvalid .email (validateEmail pg.email.value)
        (showIfInvalid .name (validateName pg.name.value)
          (clearError .message (clearError .subject (clearError .email (clearError .name pg)))))))

/-- A login page on which the user typed the password after a blank. -/
def paddedLogin : LoginPage :=
  { passwordValue := lit " veloce"
    passwordType := lit "password"
    modalDisplay := lit "flex"
    contentClasses := [lit "locked"]
    errorText := lit ""
    errorDisplay := lit "none" }

/-! ## Reachable states and concrete pages -/

/-- The states the page goes through: `loadCredentialsFromStorage` runs once
on the initial page, then the user edits fields and submits in any order; a
submission that ended in an exception leaves the page in use. -/
inductive Reachable (J : JSON Other) (pg0 : Page Other) : Page Other → Prop where
  | load : Reachable J pg0 (loadCredentialsFromStorage J pg0).page
  | input (f : FieldId) (v : JSString) {pg : Page Other} :
      Reachable J pg0 pg → Reachable J pg0 (realtimeValidation f v pg)
  | submit (now : JSString) {pg : Page Other} :
      Reachable J pg0 pg → Reachable J pg0 (handleFormSubmit J now pg).page

/-- The storage entry, when present, is a serialization of the in-memory
value: parsing it yields exactly that value. -/
def Snapshot (J : JSON Other) (pg : Page Other) : Prop :=
  ∀ s, pg.localStorage = some s → J.parse s = some pg.storedCredentials

/-- An untouched control. -/
def blankField : Field :=
  { value := lit "", defaultValue := lit "", borderColor := lit "", borderWidth := lit "",
    errorSpan := none }

/-- A fresh page whose four fields hold valid values. -/
def filledPage : Page Null :=
  { name := { blankField with value := lit " Jo Ann " }
    email := { blankField with value := lit "jo@veloce.io" }
    subject := { blankField with value := lit "Hello" }
    message := { blankField with value := lit "A long enough message" }
    storedCredentials := .array []
    localStorage := none
    trace := [] }

/-- A page whose e-mail lacks a top-level domain and whose name field still
shows an error from an earlier submission although its value is now valid. -/
def staleErrorPage : Page Null :=
  { filledPage with
    name :=
      { value := lit "Jo Ann", defaultValue := lit "", borderColor := lit "rgb(255, 84, 89)",
        borderWidth := lit "2px",
        errorSpan := some
          { textContent := lit "Name is required", color := lit "rgb(255, 84, 89)",
            fontSize := lit "12px", display := lit "block", marginTop := lit "4px" } }
    email := { blankField with value := lit "jo@veloce" } }

/-- A fresh page whose storage entry is the empty string. -/
def blankEntryPage : Page Null :=
  { filledPage with localStorage := some (lit "") }

/-- A fresh page whose storage entry is not JSON. -/
def malformedEntryPage : Page Null :=
  { filledPage with localStorage := some (lit "\x7boops") }

/-- A fresh page whose storage entry holds one record written earlier. -/
def storedEntryPage : Page Null :=
  { filledPage with
    localStorage :=
      some (canonicalJSON.stringify
        (.array [.record (recordOf (lit "11/4/2026, 10:00:00 PM") filledPage)])) }

/-- A fresh page with valid field values whose storage entry is the text `null`. -/
def nullEntryPage : Page Null :=
  { filledPage with localStorage := some (lit "null") }

/-- The shape the specification words for an accepted trimmed e-mail: no
whitespace, exactly one `@` with something before it, and after it a `.` with
something on both sides. -/
def EmailShape (t : JSString) : Prop :=
  (∀ c ∈ t, isWhiteSpace c = false) ∧ t.count 0x40 = 1 ∧
  ∃ l r, t = l ++ 0x40 :: r ∧ l ≠ [] ∧ ∃ x y, r = x ++ 0x2E :: y ∧ x ≠ [] ∧ y ≠ []

/-! ## Correctness of the matcher -/

namespace Regex

theorem nullable_iff (r : Regex) : nullable r = true ↔ Lang r [] := by
  induction r with
  | empty => simp [nullable, Lang]
  | eps => simp [nullable, Lang]
  | cls p => simp [nullable, Lang]
  | alt a b iha ihb => simp [nullable, Lang, iha, ihb]
  | cat a b iha ihb =>
    simp only [nullable, Lang, Bool.and_eq_true, iha, ihb]
    constructor
    · rintro ⟨h1, h2⟩; exact ⟨[], [], rfl, h1, h2⟩
    · rintro ⟨u, v, huv, h1, h2⟩
      obtain ⟨hu, hv⟩ := List.append_eq_nil.1 huv.symm
      subst hu; subst hv; exact ⟨h1, h2⟩
  | star a _ => simp only [nullable, Lang, true_iff]; exact ⟨[], rfl, by simp⟩

theorem lang_star_cons (a : Regex) (c : Nat) (s : List Nat) :
    Lang (star a) (c :: s) ↔ ∃ u v, s = u ++ v ∧ Lang a (c :: u) ∧ Lang (star a) v := by
  constructor
  · rintro ⟨L, hL, hall⟩
    induction L with
    | nil => simp at hL
    | cons w L ih =>
      cases w with
      | nil =>
        apply ih
        · simpa using hL
        · intro u hu; exact hall u (List.mem_cons_of_mem _ hu)
      | cons d w =>
        simp only [List.flatten_cons, List.cons_append, List.cons.injEq] at hL
        obtain ⟨rfl, rfl⟩ := hL
        exact ⟨w, L.flatten, rfl, hall _ (List.mem_cons_self _ _), L, rfl,
          fun u hu => hall u (List.mem_cons_of_mem _ hu)⟩
  · rintro ⟨u, v, rfl, hu, L, rfl, hall⟩
    refine ⟨(c :: u) :: L, by simp, ?_⟩
    intro w hw
    rcases List.mem_cons.1 hw with rfl | hw
    · exact hu
    · exact hall w hw

theorem lang_deriv (r : Regex) (c : Nat) (s : List Nat) :
    Lang (deriv r c) s ↔ Lang r (c :: s) := by
  induction r generalizing s with
  | empty => simp [deriv, Lang]
  | eps => simp [deriv, Lang]
  | cls p =>
    by_cases h : p c = true
    · simp only [deriv, Lang, h, if_true]
      constructor
      · rintro rfl; exact ⟨c, rfl, h⟩
      · rintro ⟨d, hd, _⟩
        simp only [List.cons.injEq] at hd
        exact hd.2
    · simp only [deriv, Lang, h, Bool.false_eq_true, if_false, false_iff]
      rintro ⟨d, hd, hp⟩
      simp only [List.cons.injEq] at hd
      obtain ⟨rfl, _⟩ := hd
      exact h hp
  | alt a b iha ihb => simp [deriv, Lang, iha, ihb]
  | cat a b iha ihb =>
    have key : Lang (cat a b) (c :: s) ↔
        (Lang a [] ∧ Lang b (c :: s)) ∨ ∃ u v, s = u ++ v ∧ Lang a (c :: u) ∧ Lang b v := by
      constructor
      · rintro ⟨u, v, huv, hu, hv⟩
        cases u with
        | nil => left; simp at huv; subst huv; exact ⟨hu, hv⟩
        | cons d u =>
          simp only [List.cons_append, List.cons.injEq] at huv
          obtain ⟨rfl, rfl⟩ := huv
          exact Or.inr ⟨u, v, rfl, hu, hv⟩
      · rintro (⟨h1, h2⟩ | ⟨u, v, rfl, hu, hv⟩)
        · exact ⟨[], c :: s, rfl, h1, h2⟩
        · exact ⟨c :: u, v, rfl, hu, hv⟩
    rw [key]
    by_cases hn : nullable a = true
    · have hn2 := (nullable_iff a).1 hn
      simp only [deriv, hn, if_true, Lang, iha, ihb]
      constructor
      · rintro (h | h)
        · exact Or.inr h
        · exact Or.inl ⟨hn2, h⟩
      · rintro (⟨_, h⟩ | h)
        · exact Or.inr h
        · exact Or.inl h
    · have hn2 : ¬ Lang a [] := fun h => hn ((nullable_iff a).2 h)
      simp only [deriv, hn, Lang, iha]
      simp [hn2]
  | star a iha =>
    rw [lang_star_cons]
    simp only [deriv, Lang, iha]

theorem test_iff (r : Regex) (s : List Nat) : test r s = true ↔ Lang r s := by
  induction s generalizing r with
  | nil => simpa [test] using nullable_iff r
  | cons c s ih =>
    have := ih (deriv r c)
    simp only [test, List.foldl_cons] at this ⊢
    rw [this, lang_deriv]

theorem lang_star_cls (p : Nat → Bool) (s : List Nat) :
    Lang (star (cls p)) s ↔ ∀ c ∈ s, p c = true := by
  constructor
  · rintro ⟨L, rfl, hall⟩ c hc
    obtain ⟨u, hu, hcu⟩ := List.mem_flatten.1 hc
    obtain ⟨d, rfl, hd⟩ := hall u hu
    simp at hcu; subst hcu; exact hd
  · intro h
    refine ⟨s.map (fun c => [c]), ?_, ?_⟩
    · induction s with
      | nil => rfl
      | cons c s ih =>
        simp only [List.map_cons, List.flatten_cons, List.singleton_append, List.cons.injEq,
          true_and]
        exact ih (fun d hd => h d (List.mem_cons_of_mem _ hd))
    · intro u hu
      obtain ⟨c, hc, rfl⟩ := List.mem_map.1 hu
      exact ⟨c, rfl, h c hc⟩

theorem lang_plus_cls (p : Nat → Bool) (s : List Nat) :
    Lang (plus (cls p)) s ↔ s ≠ [] ∧ ∀ c ∈ s, p c = true := by
  unfold plus
  constructor
  · rintro ⟨u, v, rfl, ⟨d, rfl, hd⟩, hv⟩
    rw [lang_star_cls] at hv
    refine ⟨by simp, ?_⟩
    intro c hc
    simp at hc
    rcases hc with rfl | hc
    · exact hd
    · exact hv c hc
  · rintro ⟨hne, h⟩
    cases s with
    | nil => exact absurd rfl hne
    | cons d s =>
      refine ⟨[d], s, rfl, ⟨d, rfl, h d (List.mem_cons_self _ _)⟩, ?_⟩
      rw [lang_star_cls]
      intro c hc; exact h c (List.mem_cons_of_mem _ hc)

end Regex

theorem mem_of_mem_trim {s : JSString} {c : Nat} (h : c ∈ trim s) : c ∈ s := by
  unfold trim List.rdropWhile at h
  have h1 := (List.dropWhile_sublist isWhiteSpace).subset (List.mem_reverse.1 h)
  exact (List.dropWhile_sublist isWhiteSpace).subset (List.mem_reverse.1 h1)

theorem nameRegex_test_iff (t : JSString) :
    nameRegex.test t = true ↔ ∀ c ∈ t, isLetter c = true ∨ isWhiteSpace c = true := by
  rw [Regex.test_iff, nameRegex, Regex.lang_star_cls]
  simp [isLetterOrSpace]

theorem lang_single (p : Nat → Bool) (s : List Nat) :
    Regex.Lang (.cls p) s ↔ ∃ c, s = [c] ∧ p c = true := Iff.rfl

theorem emailRegex_lang_iff (t : JSString) :
    Regex.Lang emailRegex t ↔
      ∃ l x y, t = l ++ 0x40 :: (x ++ 0x2E :: y) ∧
        (l ≠ [] ∧ ∀ c ∈ l, notSpaceOrAt c = true) ∧
        (x ≠ [] ∧ ∀ c ∈ x, notSpaceOrAt c = true) ∧
        (y ≠ [] ∧ ∀ c ∈ y, notSpaceOrAt c = true) := by
  unfold emailRegex
  simp only [Regex.Lang.eq_5, Regex.lang_plus_cls, lang_single]
  constructor
  · rintro ⟨l, v1, rfl, hl, a, v2, rfl, ⟨c1, rfl, hc1⟩, x, v3, rfl, hx, d, y, rfl,
      ⟨c2, rfl, hc2⟩, hy⟩
    have e1 : c1 = 0x40 := by simpa using hc1
    have e2 : c2 = 0x2E := by simpa using hc2
    subst e1; subst e2
    exact ⟨l, x, y, by simp, hl, hx, hy⟩
  · rintro ⟨l, x, y, rfl, hl, hx, hy⟩
    exact ⟨l, _, rfl, hl, [0x40], _, rfl, ⟨0x40, rfl, by decide⟩, x, _, rfl, hx, [0x2E], y, rfl,
      ⟨0x2E, rfl, by decide⟩, hy⟩

theorem notSpaceOrAt_iff (c : Nat) :
    notSpaceOrAt c = true ↔ isWhiteSpace c = false ∧ c ≠ 0x40 := by
  simp [notSpaceOrAt]

theorem emailRegex_test_iff (t : JSString) : emailRegex.test t = true ↔ EmailShape t := by
  rw [Regex.test_iff, emailRegex_lang_iff]
  constructor
  · rintro ⟨l, x, y, rfl, ⟨hl, hl2⟩, ⟨hx, hx2⟩, ⟨hy, hy2⟩⟩
    simp only [notSpaceOrAt_iff] at hl2 hx2 hy2
    refine ⟨?_, ?_, l, _, rfl, hl, x, y, rfl, hx, hy⟩
    · intro c hc
      simp only [List.mem_append, List.mem_cons] at hc
      rcases hc with hc | rfl | hc | rfl | hc
      · exact (hl2 c hc).1
      · decide
      · exact (hx2 c hc).1
      · decide
      · exact (hy2 c hc).1
    · have h1 : l.count 0x40 = 0 := List.count_eq_zero.2 (fun h => (hl2 _ h).2 rfl)
      have h2 : x.count 0x40 = 0 := List.count_eq_zero.2 (fun h => (hx2 _ h).2 rfl)
      have h3 : y.count 0x40 = 0 := List.count_eq_zero.2 (fun h => (hy2 _ h).2 rfl)
      simp [List.count_append, List.count_cons, h1, h2, h3]
  · rintro ⟨hws, hcount, l, r, rfl, hl, x, y, rfl, hx, hy⟩
    simp only [List.count_append, List.count_cons, beq_self_eq_true, if_true] at hcount
    have h1 : l.count 0x40 = 0 := by omega
    have h2 : x.count 0x40 = 0 := by omega
    have h3 : y.count 0x40 = 0 := by omega
    rw [List.count_eq_zero] at h1 h2 h3
    refine ⟨l, x, y, rfl, ⟨hl, ?_⟩, ⟨hx, ?_⟩, ⟨hy, ?_⟩⟩
    · intro c hc
      exact (notSpaceOrAt_iff c).2 ⟨hws c (by simp [hc]), fun h => h1 (h ▸ hc)⟩
    · intro c hc
      exact (notSpaceOrAt_iff c).2 ⟨hws c (by simp [hc]), fun h => h2 (h ▸ hc)⟩
    · intro c hc
      exact (notSpaceOrAt_iff c).2 ⟨hws c (by simp [hc]), fun h => h3 (h ▸ hc)⟩

/-! ## The field validators meet their contracts -/

/-- C1: `validateEmail` answers "Email is required" on an empty trimmed input,
accepts exactly the trimmed inputs of the shape `local@domain.tld` (no
whitespace, one `@`, non-empty parts around the `@` and around a `.` after it),
and rejects every other input with "Please enter a valid email address". -/
theorem validateEmail_contract :
    (∀ s : JSString,
      (trim s = [] → validateEmail s = ⟨false, lit "Email is required"⟩) ∧
      (trim s ≠ [] →
        (validateEmail s = ⟨true, lit ""⟩ ↔ EmailShape (trim s)) ∧
        (¬ EmailShape (trim s) →
          validateEmail s = ⟨false, lit "Please enter a valid email address"⟩))) ∧
    validateEmail (lit "a@b.com") = ⟨true, lit ""⟩ ∧
    validateEmail (lit "a@b") = ⟨false, lit "Please enter a valid email address"⟩ ∧
    validateEmail (lit "") = ⟨false, lit "Email is required"⟩ := by
  refine ⟨?_, by decide, by decide, by decide⟩
  intro s
  refine ⟨fun h => by simp [validateEmail, h], fun h => ?_⟩
  by_cases hm : emailRegex.test (trim s) = true
  · have hs := (emailRegex_test_iff _).1 hm
    simp [validateEmail, h, hm, hs]
  · have hs : ¬ EmailShape (trim s) := fun hs => hm ((emailRegex_test_iff _).2 hs)
    simp only [Bool.not_eq_true] at hm
    simp [validateEmail, h, hm, hs]

/-- Witness for C1: the padded input " a@b.com " is accepted, hence has the shape. -/
theorem validateEmail_contract_witness :
    trim (lit " a@b.com ") ≠ [] ∧ EmailShape (trim (lit " a@b.com ")) :=
  ⟨by decide, ((validateEmail_contract.1 (lit " a@b.com ")).2 (by decide)).1.1 (by decide)⟩

/-- C2: `validateName` answers, in this order, "Name is required" on an empty
trimmed input, "Name must be at least 2 characters" on a trimmed length below 2,
"Name can only contain letters and spaces" when a character outside A-Z, a-z
and whitespace occurs, and is valid otherwise; so every input made of letters
and whitespace with trimmed length at least 2 is valid. -/
theorem validateName_contract :
    (∀ s : JSString,
      (trim s = [] → validateName s = ⟨false, lit "Name is required"⟩) ∧
      (trim s ≠ [] → (trim s).length < 2 →
        validateName s = ⟨false, lit "Name must be at least 2 characters"⟩) ∧
      (2 ≤ (trim s).length →
        (∃ c ∈ trim s, isLetter c = false ∧ isWhiteSpace c = false) →
        validateName s = ⟨false, lit "Name can only contain letters and spaces"⟩) ∧
      (2 ≤ (trim s).length →
        (∀ c ∈ trim s, isLetter c = true ∨ isWhiteSpace c = true) →
        validateName s = ⟨true, lit ""⟩) ∧
      ((∀ c ∈ s, isLetter c = true ∨ c = 0x20) → 2 ≤ (trim s).length →
        validateName s = ⟨true, lit ""⟩)) ∧
    validateName (lit "a") = ⟨false, lit "Name must be at least 2 characters"⟩ ∧
    validateName (lit "John3") = ⟨false, lit "Name can only contain letters and spaces"⟩ := by
  refine ⟨?_, by decide, by decide⟩
  intro s
  have valid_of : 2 ≤ (trim s).length →
      (∀ c ∈ trim s, isLetter c = true ∨ isWhiteSpace c = true) →
      validateName s = ⟨true, lit ""⟩ := by
    intro hlen hall
    have hne : trim s ≠ [] := by
      intro h; rw [h] at hlen; simp at hlen
    have hm := (nameRegex_test_iff _).2 hall
    have hlen2 : ¬ (trim s).length < 2 := by omega
    simp [validateName, hne, hlen2, hm]
  refine ⟨fun h => by simp [validateName, h], fun h hlen => by simp [validateName, h, hlen],
    ?_, valid_of, ?_⟩
  · rintro hlen ⟨c, hc, hl, hw⟩
    have hne : trim s ≠ [] := by
      intro h; rw [h] at hlen; simp at hlen
    have hlen2 : ¬ (trim s).length < 2 := by omega
    have hm : nameRegex.test (trim s) = false := by
      rw [← Bool.not_eq_true, nameRegex_test_iff]
      intro hall
      rcases hall c hc with h1 | h1
      · rw [hl] at h1; exact Bool.false_ne_true h1
      · rw [hw] at h1; exact Bool.false_ne_true h1
    simp [validateName, hne, hlen2, hm]
  · intro hall hlen
    apply valid_of hlen
    intro c hc
    rcases hall c (mem_of_mem_trim hc) with h1 | rfl
    · exact Or.inl h1
    · exact Or.inr (by decide)

/-- Witness for C2: " Jo Ann " is made of letters and spaces and is accepted. -/
theorem validateName_contract_witness :
    2 ≤ (trim (lit " Jo Ann ")).length ∧ validateName (lit " Jo Ann ") = ⟨true, lit ""⟩ :=
  ⟨by decide, (validateName_contract.1 (lit " Jo Ann ")).2.2.2.2 (by decide) (by decide)⟩

/-- C6: `validateSubject` answers "Subject is required" on an empty trimmed
input, "Subject must be at least 3 characters" on a trimmed length below 3, and
is valid otherwise; it is valid exactly when the trimmed length is at least 3. -/
theorem validateSubject_contract :
    (∀ s : JSString,
      (trim s = [] → validateSubject s = ⟨false, lit "Subject is required"⟩) ∧
      (trim s ≠ [] → (trim s).length < 3 →
        validateSubject s = ⟨false, lit "Subject must be at least 3 characters"⟩) ∧
      (3 ≤ (trim s).length → validateSubject s = ⟨true, lit ""⟩) ∧
      ((validateSubject s).valid = true ↔ 3 ≤ (trim s).length)) ∧
    validateSubject (lit "Hi") = ⟨false, lit "Subject must be at least 3 characters"⟩ ∧
    validateSubject (lit "Hello") = ⟨true, lit ""⟩ := by
  refine ⟨?_, by decide, by decide⟩
  intro s
  by_cases h : trim s = []
  · simp [validateSubject, h]
  · by_cases hlen : (trim s).length < 3
    · have : ¬ 3 ≤ (trim s).length := by omega
      simp [validateSubject, h, hlen]
    · have : 3 ≤ (trim s).length := by omega
      simp [validateSubject, h, hlen, this]

/-- Witness for C6: "  Hey  " has trimmed length 3 and is accepted. -/
theorem validateSubject_contract_witness :
    3 ≤ (trim (lit "  Hey  ")).length ∧ validateSubject (lit "  Hey  ") = ⟨true, lit ""⟩ :=
  ⟨by decide, (validateSubject_contract.1 (lit "  Hey  ")).2.2.1 (by decide)⟩

/-- C7: `validateMessage` answers "Message is required" on an empty trimmed
input, "Message must be at least 10 characters" on a trimmed length below 10,
and is valid otherwise; it is valid exactly when the trimmed length is at
least 10. -/
theorem validateMessage_contract :
    (∀ s : JSString,
      (trim s = [] → validateMessage s = ⟨false, lit "Message is required"⟩) ∧
      (trim s ≠ [] → (trim s).length < 10 →
        validateMessage s = ⟨false, lit "Message must be at least 10 characters"⟩) ∧
      (10 ≤ (trim s).length → validateMessage s = ⟨true, lit ""⟩) ∧
      ((validateMessage s).valid = true ↔ 10 ≤ (trim s).length)) ∧
    validateMessage (lit "short") = ⟨false, lit "Message must be at least 10 characters"⟩ := by
  refine ⟨?_, by decide⟩
  intro s
  by_cases h : trim s = []
  · simp [validateMessage, h]
  · by_cases hlen : (trim s).length < 10
    · have : ¬ 10 ≤ (trim s).length := by omega
      simp [validateMessage, h, hlen]
    · have : 10 ≤ (trim s).length := by omega
      simp [validateMessage, h, hlen, this]

/-- Witness for C7: " 0123456789 " has trimmed length 10 and is accepted. -/
theorem validateMessage_contract_witness :
    10 ≤ (trim (lit " 0123456789 ")).length ∧
      validateMessage (lit " 0123456789 ") = ⟨true, lit ""⟩ :=
  ⟨by decide, (validateMessage_contract.1 (lit " 0123456789 ")).2.2.1 (by decide)⟩

/-! ## The concrete JSON reads back what it writes -/

theorem hexVal_hexDigit : ∀ n, n < 16 → hexVal (hexDigit n) = some n := by decide

theorem parseStringBody_quote (rest : JSString) :
    parseStringBody (0x22 :: rest) = some ([], rest) := by
  rw [parseStringBody.eq_def]; simp

theorem parseStringBody_plain (c : Nat) (rest : JSString) (h1 : c ≠ 0x22) (h2 : c ≠ 0x5C)
    (h3 : ¬ c < 0x20) :
    parseStringBody (c :: rest) = (parseStringBody rest).map (fun r => (c :: r.1, r.2)) := by
  rw [parseStringBody.eq_def]; simp [h1, h2, h3]

theorem parseStringBody_escape (e u : Nat) (rest : JSString) (h : unescape e = some u)
    (hu : e ≠ 0x75) :
    parseStringBody (0x5C :: e :: rest) =
      (parseStringBody rest).map (fun r => (u :: r.1, r.2)) := by
  rw [parseStringBody.eq_def]; simp [h, hu]

theorem parseStringBody_unicodeEscape (c : Nat) (rest : JSString) (hc : c < 65536) :
    parseStringBody (unicodeEscape c ++ rest) =
      (parseStringBody rest).map (fun r => (c :: r.1, r.2)) := by
  have e : 4096 * (c / 4096 % 16) + 256 * (c / 256 % 16) + 16 * (c / 16 % 16) + c % 16 = c := by
    omega
  simp only [unicodeEscape, List.cons_append, List.nil_append]
  rw [parseStringBody.eq_def]
  simp only [Nat.reduceEqDiff, if_false, if_true]
  rw [hexVal_hexDigit _ (Nat.mod_lt _ (by decide)), hexVal_hexDigit _ (Nat.mod_lt _ (by decide)),
    hexVal_hexDigit _ (Nat.mod_lt _ (by decide)), hexVal_hexDigit _ (Nat.mod_lt _ (by decide))]
  simp [e]

theorem parseStringBody_quoteUnit (c : Nat) (rest : JSString) :
    parseStringBody (quoteUnit c ++ rest) =
      (parseStringBody rest).map (fun r => (c :: r.1, r.2)) := by
  unfold quoteUnit
  split_ifs with h1 h2 h3 h4 h5 h6 h7 h8
  · subst h1; exact parseStringBody_escape _ _ _ (by decide) (by decide)
  · subst h2; exact parseStringBody_escape _ _ _ (by decide) (by decide)
  · subst h3; exact parseStringBody_escape _ _ _ (by decide) (by decide)
  · subst h4; exact parseStringBody_escape _ _ _ (by decide) (by decide)
  · subst h5; exact parseStringBody_escape _ _ _ (by decide) (by decide)
  · subst h6; exact parseStringBody_escape _ _ _ (by decide) (by decide)
  · subst h7; exact parseStringBody_escape _ _ _ (by decide) (by decide)
  · apply parseStringBody_unicodeEscape
    simp only [isSurrogate, Bool.or_eq_true, decide_eq_true_eq, Bool.and_eq_true] at h8
    omega
  · simp only [isSurrogate, Bool.or_eq_true, decide_eq_true_eq, Bool.and_eq_true, not_or] at h8
    exact parseStringBody_plain c rest h6 h7 h8.1

theorem parseStringBody_quoteBody (rest : JSString) :
    ∀ s : JSString, parseStringBody (quoteBody s ++ 0x22 :: rest) = some (s, rest) := by
  intro s
  induction s using quoteBody.induct with
  | case1 => simp [quoteBody, parseStringBody_quote]
  | case2 c =>
    simp only [quoteBody]
    rw [parseStringBody_quoteUnit, parseStringBody_quote]
    rfl
  | case3 c d tl hp ih =>
    simp only [quoteBody, hp, if_true, List.cons_append]
    simp only [isPair, Bool.and_eq_true, decide_eq_true_eq] at hp
    rw [parseStringBody_plain c _ (by omega) (by omega) (by omega),
      parseStringBody_plain d _ (by omega) (by omega) (by omega), ih]
    rfl
  | case4 c d tl hp ih =>
    simp only [quoteBody, hp, Bool.false_eq_true, if_false, List.append_assoc]
    rw [parseStringBody_quoteUnit, ih]
    rfl

theorem parseString_quoteJSONString (s rest : JSString) :
    parseString (quoteJSONString s ++ rest) = some (s, rest) := by
  simp only [quoteJSONString, List.cons_append, List.append_assoc, List.singleton_append,
    parseString, if_true]
  exact parseStringBody_quoteBody rest s

theorem expect_append (tok s : JSString) : expect tok (tok ++ s) = some s := by
  induction tok with
  | nil => cases s <;> rfl
  | cons t ts ih => simp [expect, ih]

theorem parseMember_append (key v rest : JSString) :
    parseMember key (key ++ (quoteJSONString v ++ rest)) = some (v, rest) := by
  simp [parseMember, expect_append, parseString_quoteJSONString]

theorem parseRecord_stringifyRecord (r : ContactRecord) (rest : JSString) :
    parseRecord (stringifyRecord r ++ rest) = some (r, rest) := by
  simp only [stringifyRecord, List.append_assoc, parseRecord, parseMember_append,
    Option.some_bind, expect_append, Option.map_some']

theorem parseRecord_null (rest : JSString) : parseRecord (lit "null" ++ rest) = none := by
  simp [parseRecord, parseMember, expect, lit, utf16]

theorem parseElement_stringifyElement (e : Element Null) (rest : JSString) :
    parseElement (stringifyElement e ++ rest) = some (e, rest) := by
  cases e with
  | record r => simp [parseElement, stringifyElement, parseRecord_stringifyRecord]
  | other v =>
    cases v
    simp [parseElement, stringifyElement, parseRecord_null, expect_append]

theorem one_le_length_stringifyElement (e : Element Null) :
    1 ≤ (stringifyElement e).length := by
  cases e with
  | record r => simp [stringifyElement, stringifyRecord, lit, utf16]
  | other v => cases v; simp [stringifyElement, lit, utf16]

theorem stringifyItems_cons (r : Element Null) (rs : List (Element Null)) :
    stringifyItems (r :: rs) =
      stringifyElement r ++ (if rs = [] then lit "]" else lit "," ++ stringifyItems rs) := by
  cases rs with
  | nil => rfl
  | cons r2 rs => simp [stringifyItems]

theorem parseItems_stringifyItems (rest : JSString) :
    ∀ (xs : List (Element Null)) (fuel : Nat), xs ≠ [] → xs.length ≤ fuel →
      parseItems fuel (stringifyItems xs ++ rest) = some (xs, rest) := by
  intro xs
  induction xs with
  | nil => intro _ h; exact absurd rfl h
  | cons r rs ih =>
    intro fuel _ hf
    cases fuel with
    | zero => simp at hf
    | succ fuel =>
      rw [stringifyItems_cons, List.append_assoc]
      simp only [parseItems, parseElement_stringifyElement, Option.some_bind]
      by_cases hrs : rs = []
      · subst hrs
        have e : lit "]" ++ rest = 0x5D :: rest := by simp [lit, utf16]
        simp [e]
      · have hlen : rs.length ≤ fuel := by simpa using hf
        have := ih fuel hrs hlen
        simp only [hrs, if_false]
        have e : lit "," ++ stringifyItems rs ++ rest = 0x2C :: (stringifyItems rs ++ rest) := by
          simp [lit, utf16]
        rw [e]
        simp [this]

theorem length_le_stringifyItems (xs : List (Element Null)) :
    xs.length ≤ (stringifyItems xs).length := by
  induction xs with
  | nil => simp
  | cons r rs ih =>
    rw [stringifyItems_cons]
    have h1 := one_le_length_stringifyElement r
    by_cases hrs : rs = []
    · subst hrs
      simp only [if_true, List.length_append, List.length_cons, List.length_nil]
      omega
    · simp only [hrs, if_false, List.length_append, List.length_cons]
      omega

theorem head_stringifyElement (e : Element Null) :
    ∃ c tl, stringifyElement e = c :: tl ∧ c ≠ 0x5D := by
  cases e with
  | record r => exact ⟨0x7B, _, rfl, by decide⟩
  | other v => cases v; exact ⟨0x6E, _, rfl, by decide⟩

theorem parseArray_stringifyArray (xs : List (Element Null)) :
    parseArray (stringifyArray xs) = some xs := by
  cases xs with
  | nil => decide
  | cons r rs =>
    have e : stringifyArray (r :: rs) = 0x5B :: stringifyItems (r :: rs) := by
      simp [stringifyArray, lit, utf16]
    have hne : stringifyItems (r :: rs) ≠ [0x5D] := by
      rw [stringifyItems_cons]
      obtain ⟨c, tl, hc, hcne⟩ := head_stringifyElement r
      rw [hc]
      intro h
      simp only [List.cons_append, List.cons.injEq] at h
      exact hcne h.1
    have hp := parseItems_stringifyItems [] (r :: rs) (stringifyItems (r :: rs)).length
      (by simp) (length_le_stringifyItems _)
    rw [List.append_nil] at hp
    rw [e]
    simp only [parseArray, if_true, hne, if_false, hp]

theorem canonicalJSON_roundtrip (v : Stored Null) :
    canonicalJSON.parse (canonicalJSON.stringify v) = some v := by
  cases v with
  | array xs =>
    have hne : stringifyArray xs ≠ lit "null" := by
      simp [stringifyArray, lit, utf16]
    simp [canonicalJSON, parseValue, stringifyValue, hne, parseArray_stringifyArray]
  | other v =>
    cases v
    decide

/-! ## Error presentation and the submission orchestrator -/

theorem get_set_same (pg : Page Other) (f : FieldId) (x : Field) : (pg.set f x).get f = x := by
  cases f <;> rfl

theorem set_set (pg : Page Other) (f : FieldId) (x y : Field) :
    (pg.set f x).set f y = pg.set f y := by
  cases f <;> rfl

theorem set_get (pg : Page Other) (f : FieldId) : pg.set f (pg.get f) = pg := by
  cases f <;> rfl

theorem handleFormSubmit_valid (J : JSON Other) (now : JSString) (pg : Page Other)
    (xs : List (Element Other)) (h : allValid pg = true) (hx : pg.storedCredentials = .array xs) :
    handleFormSubmit J now pg =
      { page := formReset
          { clearError .message (clearError .subject (clearError .email (clearError .name pg)))
            with
            storedCredentials := .array (xs ++ [.record (recordOf now pg)])
            localStorage := some (J.stringify (.array (xs ++ [.record (recordOf now pg)])))
            trace := pg.trace ++
              [.setItem (J.stringify (.array (xs ++ [.record (recordOf now pg)]))),
                .alert (successText (recordOf now pg))] }
        fault := false } := by
  simp only [allValid, Bool.and_eq_true] at h
  obtain ⟨⟨⟨h1, h2⟩, h3⟩, h4⟩ := h
  simp [handleFormSubmit, h1, h2, h3, h4, hx, saveCredentialsToStorage, recordOf, clearError,
    Page.set, Page.get]

theorem handleFormSubmit_valid_other (J : JSON Other) (now : JSString) (pg : Page Other)
    (v : Other) (h : allValid pg = true) (hx : pg.storedCredentials = .other v) :
    handleFormSubmit J now pg =
      { page := clearError .message (clearError .subject (clearError .email (clearError .name pg)))
        fault := true } := by
  simp only [allValid, Bool.and_eq_true] at h
  obtain ⟨⟨⟨h1, h2⟩, h3⟩, h4⟩ := h
  simp [handleFormSubmit, h1, h2, h3, h4, hx, clearError, Page.set, Page.get]

theorem handleFormSubmit_invalid (J : JSON Other) (now : JSString) (pg : Page Other)
    (h : allValid pg = false) :
    handleFormSubmit J now pg = { page := displayed pg, fault := false } := by
  unfold allValid at h
  unfold handleFormSubmit displayed showIfInvalid
  cases h1 : (validateName pg.name.value).valid <;>
  cases h2 : (validateEmail pg.email.value).valid <;>
  cases h3 : (validateSubject pg.subject.value).valid <;>
  cases h4 : (validateMessage pg.message.value).valid <;>
  simp [h1, h2, h3, h4] at h ⊢

theorem displayed_of_valid (pg : Page Other) (h : allValid pg = true) :
    displayed pg =
      clearError .message (clearError .subject (clearError .email (clearError .name pg))) := by
  simp only [allValid, Bool.and_eq_true] at h
  obtain ⟨⟨⟨h1, h2⟩, h3⟩, h4⟩ := h
  simp [displayed, showIfInvalid, h1, h2, h3, h4]

theorem message_ne_of_invalid (f : FieldId) (s : JSString)
    (h : (validatorOf f s).valid = false) : (validatorOf f s).message ≠ lit "" := by
  cases f
  · simp only [validatorOf, validateName] at h ⊢
    split_ifs at h ⊢ <;> decide
  · simp only [validatorOf, validateEmail] at h ⊢
    split_ifs at h ⊢ <;> decide
  · simp only [validatorOf, validateSubject] at h ⊢
    split_ifs at h ⊢ <;> decide
  · simp only [validatorOf, validateMessage] at h ⊢
    split_ifs at h ⊢ <;> decide

theorem displayed_get (pg : Page Other) (f : FieldId) :
    (displayed pg).get f =
      if (validatorOf f (pg.get f).value).valid then
        { pg.get f with
          errorSpan := (pg.get f).errorSpan.map (fun e => { e with textContent := lit "" })
          borderColor := lit ""
          borderWidth := lit "" }
      else
        { pg.get f with
          errorSpan := some
            { (match (pg.get f).errorSpan with
                | some e => e
                | none =>
                  { textContent := lit "", color := lit "rgb(255, 84, 89)",
                    fontSize := lit "12px", display := lit "block", marginTop := lit "4px" })
              with textContent := (validatorOf f (pg.get f).value).message }
          borderColor := lit "rgb(255, 84, 89)"
          borderWidth := lit "2px" } := by
  unfold displayed showIfInvalid
  cases h1 : (validateName pg.name.value).valid <;>
  cases h2 : (validateEmail pg.email.value).valid <;>
  cases h3 : (validateSubject pg.subject.value).valid <;>
  cases h4 : (validateMessage pg.message.value).valid <;>
  cases f <;>
  simp only [validatorOf, Page.get, Page.set, showError, clearError, h1, h2, h3, h4, if_true,
    Bool.false_eq_true, if_false] <;>
  cases pg.name.errorSpan <;> cases pg.email.errorSpan <;> cases pg.subject.errorSpan <;>
  cases pg.message.errorSpan <;> rfl

theorem displayed_storedCredentials (pg : Page Other) :
    (displayed pg).storedCredentials = pg.storedCredentials ∧
    (displayed pg).localStorage = pg.localStorage ∧ (displayed pg).trace = pg.trace := by
  unfold displayed showIfInvalid
  cases (validateName pg.name.value).valid <;>
  cases (validateEmail pg.email.value).valid <;>
  cases (validateSubject pg.subject.value).valid <;>
  cases (validateMessage pg.message.value).valid <;>
  simp [Page.set, showError, clearError]

theorem handleFormSubmit_display (J : JSON Other) (now : JSString) (pg : Page Other)
    (f : FieldId) :
    ((handleFormSubmit J now pg).page.get f).errorSpan = ((displayed pg).get f).errorSpan ∧
    ((handleFormSubmit J now pg).page.get f).borderColor = ((displayed pg).get f).borderColor ∧
    ((handleFormSubmit J now pg).page.get f).borderWidth = ((displayed pg).get f).borderWidth := by
  cases h : allValid pg
  · rw [handleFormSubmit_invalid J now pg h]
    exact ⟨rfl, rfl, rfl⟩
  · cases hx : pg.storedCredentials with
    | array xs =>
      rw [handleFormSubmit_valid J now pg xs h hx, displayed_of_valid pg h]
      cases f <;> exact ⟨rfl, rfl, rfl⟩
    | other v =>
      rw [handleFormSubmit_valid_other J now pg v h hx, displayed_of_valid pg h]
      exact ⟨rfl, rfl, rfl⟩

/-- C3: for every prior in-memory list, `handleFormSubmit` appends exactly one
record, made of the trimmed field values, after the unchanged earlier elements
when all four validators pass, and leaves the list as it was when any
validator fails; so a record is appended if and only if all four pass. -/
theorem handleFormSubmit_appends (J : JSON Other) (now : JSString) (pg : Page Other)
    (L : List (Element Other)) (hL : pg.storedCredentials = .array L) :
    (allValid pg = true →
      (handleFormSubmit J now pg).page.storedCredentials =
        .array (L ++
          [.record { name := trim pg.name.value, email := trim pg.email.value,
                     subject := trim pg.subject.value, message := trim pg.message.value,
                     timestamp := now }]) ∧
      (handleFormSubmit J now pg).fault = false) ∧
    (allValid pg = false →
      (handleFormSubmit J now pg).page.storedCredentials = .array L ∧
      (handleFormSubmit J now pg).fault = false) ∧
    ((∃ r, (handleFormSubmit J now pg).page.storedCredentials = .array (L ++ [r])) ↔
      ((validateName pg.name.value).valid = true ∧ (validateEmail pg.email.value).valid = true ∧
        (validateSubject pg.subject.value).valid = true ∧
        (validateMessage pg.message.value).valid = true)) := by
  have hv : allValid pg = true →
      (handleFormSubmit J now pg).page.storedCredentials =
        .array (L ++ [.record (recordOf now pg)]) ∧
      (handleFormSubmit J now pg).fault = false := by
    intro h
    rw [handleFormSubmit_valid J now pg L h hL]
    exact ⟨rfl, rfl⟩
  have hi : allValid pg = false →
      (handleFormSubmit J now pg).page.storedCredentials = .array L ∧
      (handleFormSubmit J now pg).fault = false := by
    intro h
    rw [handleFormSubmit_invalid J now pg h]
    exact ⟨(displayed_storedCredentials pg).1.trans hL, rfl⟩
  refine ⟨hv, hi, ?_⟩
  have hall : allValid pg = true ↔
      ((validateName pg.name.value).valid = true ∧ (validateEmail pg.email.value).valid = true ∧
        (validateSubject pg.subject.value).valid = true ∧
        (validateMessage pg.message.value).valid = true) := by
    simp [allValid, and_assoc]
  rw [← hall]
  constructor
  · rintro ⟨r, hr⟩
    by_contra hne
    have hf : allValid pg = false := by simpa using hne
    rw [(hi hf).1] at hr
    have hr2 : L = L ++ [r] := Stored.array.inj hr
    have := congrArg List.length hr2
    simp at this
  · intro h
    exact ⟨_, (hv h).1⟩

/-- C8: after `handleFormSubmit` a field whose validator failed shows exactly
that validator's message with the error border, a field whose validator passed
shows blank error text and no error border whatever it showed before, and so a
field shows an error if and only if its own validator failed. -/
theorem handleFormSubmit_errors (J : JSON Other) (now : JSString) (pg : Page Other)
    (f : FieldId) :
    ((validatorOf f (pg.get f).value).valid = false →
      (∃ e, ((handleFormSubmit J now pg).page.get f).errorSpan = some e ∧
        e.textContent = (validatorOf f (pg.get f).value).message) ∧
      HasErrorStyle ((handleFormSubmit J now pg).page.get f)) ∧
    ((validatorOf f (pg.get f).value).valid = true →
      errorText ((handleFormSubmit J now pg).page.get f) = lit "" ∧
      NoErrorStyle ((handleFormSubmit J now pg).page.get f)) ∧
    ((errorText ((handleFormSubmit J now pg).page.get f) ≠ lit "" ∧
        HasErrorStyle ((handleFormSubmit J now pg).page.get f)) ↔
      (validatorOf f (pg.get f).value).valid = false) := by
  obtain ⟨k1, k2, k3⟩ := handleFormSubmit_display J now pg f
  have hd := displayed_get pg f
  have hne := message_ne_of_invalid f (pg.get f).value
  cases hv : (validatorOf f (pg.get f).value).valid
  · simp only [hv, Bool.false_eq_true, if_false] at hd
    have hmsg := hne hv
    simp only [errorText, HasErrorStyle, NoErrorStyle, k1, k2, k3, hd]
    simp [hmsg]
  · simp only [hv, if_true] at hd
    simp only [errorText, HasErrorStyle, NoErrorStyle, k1, k2, k3, hd]
    cases (pg.get f).errorSpan <;> simp

/-- C10: `clearError` twice equals `clearError` once, `showError` twice with the
same message equals `showError` once and reuses an existing error element, and
`clearError` on a field with blank error text and no error styling changes
nothing (and changes nothing only on such a field). -/
theorem error_presentation_idempotent (pg : Page Other) (f : FieldId) (m : JSString) :
    clearError f (clearError f pg) = clearError f pg ∧
    showError f m (showError f m pg) = showError f m pg ∧
    (∀ e, (pg.get f).errorSpan = some e →
      ((showError f m pg).get f).errorSpan = some { e with textContent := m }) ∧
    (errorText (pg.get f) = lit "" → NoErrorStyle (pg.get f) → clearError f pg = pg) ∧
    (clearError f pg = pg → errorText (pg.get f) = lit "" ∧ NoErrorStyle (pg.get f)) := by
  refine ⟨?_, ?_, ?_, ?_, ?_⟩
  · simp only [clearError, get_set_same, set_set]
    cases (pg.get f).errorSpan <;> rfl
  · simp only [showError, get_set_same, set_set]
  · intro e he
    simp only [showError, get_set_same, he]
  · intro ht hs
    obtain ⟨hc, hw⟩ := hs
    have hspan : (pg.get f).errorSpan.map (fun e => { e with textContent := lit "" }) =
        (pg.get f).errorSpan := by
      unfold errorText at ht
      cases hE : (pg.get f).errorSpan with
      | none => rfl
      | some e =>
        rw [hE] at ht
        simp only [Option.map_some']
        congr 1
        cases e
        simp only at ht
        subst ht
        rfl
    have : ({ pg.get f with
        errorSpan := (pg.get f).errorSpan.map (fun e => { e with textContent := lit "" })
        borderColor := lit ""
        borderWidth := lit "" } : Field) = pg.get f := by
      rw [hspan]
      cases hF : pg.get f
      rw [hF] at hc hw
      simp only at hc hw
      subst hc; subst hw
      rfl
    unfold clearError
    simp only [this, set_get]
  · intro h
    have hg := congrArg (fun q => q.get f) h
    simp only [clearError, get_set_same] at hg
    have h1 := congrArg Field.errorSpan hg
    have h2 := congrArg Field.borderColor hg
    have h3 := congrArg Field.borderWidth hg
    simp only at h1 h2 h3
    refine ⟨?_, h2.symm, h3.symm⟩
    unfold errorText
    cases hE : (pg.get f).errorSpan with
    | none => rfl
    | some e =>
      rw [hE] at h1
      simp only [Option.map_some', Option.some.injEq] at h1
      have := congrArg ErrorSpan.textContent h1
      exact this.symm

/-- Witness for C3: submitting the filled page appends its one record. -/
theorem handleFormSubmit_appends_witness :
    filledPage.storedCredentials = .array [] ∧ allValid filledPage = true ∧
      (handleFormSubmit canonicalJSON (lit "now") filledPage).page.storedCredentials =
        .array [.record
          { name := lit "Jo Ann", email := lit "jo@veloce.io", subject := lit "Hello",
            message := lit "A long enough message", timestamp := lit "now" }] :=
  ⟨rfl, by decide,
    ((handleFormSubmit_appends canonicalJSON (lit "now") filledPage [] rfl).1 (by decide)).1⟩

/-- Witness for C8: on the page with a stale name error and a bad e-mail, the
e-mail field shows the e-mail message and the name field is cleared. -/
theorem handleFormSubmit_errors_witness :
    ((∃ e, ((handleFormSubmit canonicalJSON (lit "now") staleErrorPage).page.get .email).errorSpan =
          some e ∧ e.textContent = lit "Please enter a valid email address") ∧
      HasErrorStyle ((handleFormSubmit canonicalJSON (lit "now") staleErrorPage).page.get .email)) ∧
    (errorText ((handleFormSubmit canonicalJSON (lit "now") staleErrorPage).page.get .name) =
        lit "" ∧
      NoErrorStyle ((handleFormSubmit canonicalJSON (lit "now") staleErrorPage).page.get .name)) :=
  ⟨(handleFormSubmit_errors canonicalJSON (lit "now") staleErrorPage .email).1 (by decide),
   (handleFormSubmit_errors canonicalJSON (lit "now") staleErrorPage .name).2.1 (by decide)⟩

/-- Witness for C10: the untouched name field of the filled page has no active
error, and clearing it changes nothing. -/
theorem error_presentation_idempotent_witness :
    errorText (filledPage.get .name) = lit "" ∧ NoErrorStyle (filledPage.get .name) ∧
      clearError .name filledPage = filledPage :=
  ⟨by decide, ⟨by decide, by decide⟩,
   (error_presentation_idempotent filledPage .name (lit "")).2.2.2.1 (by decide)
     ⟨by decide, by decide⟩⟩

/-! ## The access gate -/

/-- C9, as the code has it: `handleLogin` compares the trimmed input with
`'veloce'`. When they are equal the modal is hidden, `locked` is removed from
the content region's classes and the error is hidden; otherwise the message
'❌ Incorrect password' is shown and the classes and the modal are unchanged. -/
theorem handleLogin_gate (pg : LoginPage) :
    (trim pg.passwordValue = lit "veloce" →
      (handleLogin pg).modalDisplay = lit "none" ∧
      lit "locked" ∉ (handleLogin pg).contentClasses ∧
      (∀ c, c ≠ lit "locked" → (c ∈ (handleLogin pg).contentClasses ↔ c ∈ pg.contentClasses)) ∧
      (handleLogin pg).errorDisplay = lit "none" ∧
      (handleLogin pg).errorText = pg.errorText) ∧
    (trim pg.passwordValue ≠ lit "veloce" →
      (handleLogin pg).errorText = lit "❌ Incorrect password" ∧
      (handleLogin pg).errorDisplay = lit "block" ∧
      (handleLogin pg).contentClasses = pg.contentClasses ∧
      (handleLogin pg).modalDisplay = pg.modalDisplay) ∧
    (pg.passwordValue = lit "veloce" → trim pg.passwordValue = lit "veloce") := by
  refine ⟨?_, ?_, ?_⟩
  · intro h
    have h2 : trim pg.passwordValue = ADMIN_PASSWORD := h
    have e : handleLogin pg =
        { pg with
          modalDisplay := lit "none"
          contentClasses := pg.contentClasses.filter (fun c => c ≠ lit "locked")
          errorDisplay := lit "none" } := if_pos h2
    rw [e]
    refine ⟨rfl, ?_, ?_, rfl, rfl⟩
    · simp [List.mem_filter]
    · intro c hc
      simp [List.mem_filter, hc]
  · intro h
    have h2 : ¬ trim pg.passwordValue = ADMIN_PASSWORD := h
    have e : handleLogin pg =
        { pg with errorText := lit "❌ Incorrect password", errorDisplay := lit "block" } :=
      if_neg h2
    rw [e]
    exact ⟨rfl, rfl, rfl, rfl⟩
  · intro h
    rw [h]
    decide

/-- Witness for C9: typing " veloce " with blanks around it opens the gate. -/
theorem handleLogin_gate_witness :
    trim paddedLogin.passwordValue = lit "veloce" ∧
      (handleLogin paddedLogin).modalDisplay = lit "none" ∧
      lit "locked" ∉ (handleLogin paddedLogin).contentClasses :=
  ⟨by decide, ((handleLogin_gate paddedLogin).1 (by decide)).1,
    ((handleLogin_gate paddedLogin).1 (by decide)).2.1⟩

/-- C9, as stated, fails: the input " veloce" is not the constant, yet the
modal is hidden, `locked` is removed and no error message is shown. -/
theorem handleLogin_padded_counterexample :
    paddedLogin.passwordValue ≠ lit "veloce" ∧
      (handleLogin paddedLogin).contentClasses ≠ paddedLogin.contentClasses ∧
      (handleLogin paddedLogin).modalDisplay ≠ paddedLogin.modalDisplay ∧
      (handleLogin paddedLogin).errorText ≠ lit "❌ Incorrect password" := by
  decide

/-! ## The storage bridge -/

/-- C5, as the code has it: from an empty list, a non-empty well-formed entry
becomes the list without a fault; an absent or empty entry leaves the list
empty without a fault; a non-empty malformed entry raises the fault of the
unguarded `JSON.parse` and leaves the list empty. -/
theorem loadCredentialsFromStorage_cases (J : JSON Other) (pg : Page Other)
    (h0 : pg.storedCredentials = .array []) :
    (∀ s v, pg.localStorage = some s → s ≠ [] → J.parse s = some v →
      (loadCredentialsFromStorage J pg).page.storedCredentials = v ∧
      (loadCredentialsFromStorage J pg).fault = false) ∧
    (pg.localStorage = none ∨ pg.localStorage = some (lit "") →
      (loadCredentialsFromStorage J pg).page.storedCredentials = .array [] ∧
      (loadCredentialsFromStorage J pg).fault = false) ∧
    (∀ s, pg.localStorage = some s → s ≠ [] → J.parse s = none →
      (loadCredentialsFromStorage J pg).page.storedCredentials = .array [] ∧
      (loadCredentialsFromStorage J pg).fault = true) := by
  refine ⟨?_, ?_, ?_⟩
  · intro s v hs hne hp
    simp [loadCredentialsFromStorage, hs, hne, hp]
  · rintro (h | h)
    · simp [loadCredentialsFromStorage, h, h0]
    · have : lit "" = ([] : JSString) := rfl
      simp [loadCredentialsFromStorage, h, h0, this]
  · intro s hs hne hp
    simp [loadCredentialsFromStorage, hs, hne, hp, h0]

/-- Witness for C5: the entry written for one record is read back as that record. -/
theorem loadCredentialsFromStorage_cases_witness :
    storedEntryPage.storedCredentials = .array [] ∧
      (loadCredentialsFromStorage canonicalJSON storedEntryPage).page.storedCredentials =
        .array [.record (recordOf (lit "11/4/2026, 10:00:00 PM") filledPage)] ∧
      (loadCredentialsFromStorage canonicalJSON storedEntryPage).fault = false :=
  ⟨rfl, (loadCredentialsFromStorage_cases canonicalJSON storedEntryPage rfl).1
    (canonicalJSON.stringify
      (.array [.record (recordOf (lit "11/4/2026, 10:00:00 PM") filledPage)]))
    (.array [.record (recordOf (lit "11/4/2026, 10:00:00 PM") filledPage)]) rfl
    (List.cons_ne_nil _ _) (canonicalJSON_roundtrip _)⟩

/-- C5, as stated, fails: the entry `{oops` is present and not parseable, and
`loadCredentialsFromStorage` raises a fault. -/
theorem loadCredentialsFromStorage_malformed_counterexample :
    malformedEntryPage.storedCredentials = .array [] ∧
      malformedEntryPage.localStorage = some (lit "\x7boops") ∧
      canonicalJSON.parse (lit "\x7boops") = none ∧
      (loadCredentialsFromStorage canonicalJSON malformedEntryPage).fault = true := by
  decide

theorem realtimeValidation_storage (f : FieldId) (v : JSString) (pg : Page Other) :
    (realtimeValidation f v pg).storedCredentials = pg.storedCredentials ∧
    (realtimeValidation f v pg).localStorage = pg.localStorage := by
  unfold realtimeValidation
  cases f <;> simp only [Page.set, Page.get, clearError] <;> split_ifs <;> exact ⟨rfl, rfl⟩

theorem handleFormSubmit_storage (J : JSON Other) (now : JSString) (pg : Page Other) :
    ((handleFormSubmit J now pg).page.storedCredentials = pg.storedCredentials ∧
      (handleFormSubmit J now pg).page.localStorage = pg.localStorage) ∨
    (∃ xs, (handleFormSubmit J now pg).page.storedCredentials = .array xs ∧
      (handleFormSubmit J now pg).page.localStorage = some (J.stringify (.array xs))) := by
  cases hv : allValid pg
  · rw [handleFormSubmit_invalid J now pg hv]
    exact Or.inl ⟨(displayed_storedCredentials pg).1, (displayed_storedCredentials pg).2.1⟩
  · cases hx : pg.storedCredentials with
    | array xs =>
      rw [handleFormSubmit_valid J now pg xs hv hx]
      exact Or.inr ⟨_, rfl, rfl⟩
    | other v =>
      rw [handleFormSubmit_valid_other J now pg v hv hx]
      exact Or.inl ⟨hx.symm ▸ rfl, rfl⟩

/-- C4, as the code has it: when `JSON.parse` reads back the lists
`JSON.stringify` writes and the entry found at load is absent or a non-empty
well-formed text, then in every state reached by one load followed by any
edits and submissions the entry, when present, is a serialization of the
complete in-memory value (parsing it yields exactly that value), and it is
either the text found at load or literally what `JSON.stringify` gives for the
value. A submission with four valid fields made while the value is a list
appends the record and writes the serialization of the whole list, once; made
while the value is not a list it ends in the exception of `push` and writes
nothing; a submission with an invalid field writes nothing and leaves the
entry unchanged. -/
theorem storage_snapshot (J : JSON Other)
    (hrt : ∀ xs, J.parse (J.stringify (.array xs)) = some (.array xs))
    (pg0 : Page Other)
    (hinit : pg0.localStorage = none ∨
      ∃ s v, pg0.localStorage = some s ∧ s ≠ [] ∧ J.parse s = some v) :
    (∀ pg, Reachable J pg0 pg →
      Snapshot J pg ∧
      (pg.localStorage = pg0.localStorage ∨
        pg.localStorage = some (J.stringify pg.storedCredentials))) ∧
    (∀ pg now xs, allValid pg = true → pg.storedCredentials = .array xs →
      (handleFormSubmit J now pg).fault = false ∧
      (handleFormSubmit J now pg).page.storedCredentials =
        .array (xs ++ [.record (recordOf now pg)]) ∧
      (handleFormSubmit J now pg).page.localStorage =
        some (J.stringify (.array (xs ++ [.record (recordOf now pg)]))) ∧
      (handleFormSubmit J now pg).page.trace =
        pg.trace ++ [.setItem (J.stringify (.array (xs ++ [.record (recordOf now pg)]))),
          .alert (successText (recordOf now pg)), .reset]) ∧
    (∀ pg now v, allValid pg = true → pg.storedCredentials = .other v →
      (handleFormSubmit J now pg).fault = true ∧
      (handleFormSubmit J now pg).page.storedCredentials = .other v ∧
      (handleFormSubmit J now pg).page.localStorage = pg.localStorage ∧
      (handleFormSubmit J now pg).page.trace = pg.trace) ∧
    (∀ pg now, allValid pg = false →
      (handleFormSubmit J now pg).fault = false ∧
      (handleFormSubmit J now pg).page.storedCredentials = pg.storedCredentials ∧
      (handleFormSubmit J now pg).page.localStorage = pg.localStorage ∧
      (handleFormSubmit J now pg).page.trace = pg.trace) := by
  refine ⟨?_, ?_, ?_, ?_⟩
  · intro pg hr
    induction hr with
    | load =>
      rcases hinit with h | ⟨s, v, hs, hne, hp⟩
      · refine ⟨?_, Or.inl ?_⟩
        · intro t ht
          simp [loadCredentialsFromStorage, h] at ht
        · simp [loadCredentialsFromStorage, h]
      · refine ⟨?_, Or.inl ?_⟩
        · intro t ht
          simp only [loadCredentialsFromStorage, hs, hne, if_false, hp] at ht ⊢
          have : s = t := by simpa using ht
          subst this
          exact hp
        · simp [loadCredentialsFromStorage, hs, hne, hp]
    | input f v _ ih =>
      obtain ⟨h1, h2⟩ := realtimeValidation_storage f v _
      obtain ⟨ih1, ih2⟩ := ih
      refine ⟨?_, ?_⟩
      · intro t ht
        rw [h2] at ht
        rw [h1]
        exact ih1 t ht
      · rw [h1, h2]
        exact ih2
    | submit now _ ih =>
      obtain ⟨ih1, ih2⟩ := ih
      rcases handleFormSubmit_storage J now _ with ⟨h1, h2⟩ | ⟨xs, h1, h2⟩
      · refine ⟨?_, ?_⟩
        · intro t ht
          rw [h2] at ht
          rw [h1]
          exact ih1 t ht
        · rw [h1, h2]
          exact ih2
      · refine ⟨?_, Or.inr ?_⟩
        · intro t ht
          rw [h2] at ht
          have : J.stringify (.array xs) = t := by simpa using ht
          subst this
          rw [h1]
          exact hrt xs
        · rw [h1, h2]
  · intro pg now xs hv hx
    rw [handleFormSubmit_valid J now pg xs hv hx]
    refine ⟨rfl, rfl, rfl, ?_⟩
    simp [formReset]
  · intro pg now v hv hx
    rw [handleFormSubmit_valid_other J now pg v hv hx]
    exact ⟨rfl, hx, rfl, rfl⟩
  · intro pg now hv
    rw [handleFormSubmit_invalid J now pg hv]
    exact ⟨rfl, (displayed_storedCredentials pg).1, (displayed_storedCredentials pg).2.1,
      (displayed_storedCredentials pg).2.2⟩

/-- Witness for C4: load on the filled page, with no entry and with the entry
of one earlier record, then submit; the entry written parses to the list in
memory. -/
theorem storage_snapshot_witness :
    (filledPage.localStorage = none ∧
      Snapshot canonicalJSON
        (handleFormSubmit canonicalJSON (lit "now")
          (loadCredentialsFromStorage canonicalJSON filledPage).page).page) ∧
    (storedEntryPage.localStorage =
        some (canonicalJSON.stringify
          (.array [.record (recordOf (lit "11/4/2026, 10:00:00 PM") filledPage)])) ∧
      Snapshot canonicalJSON
        (handleFormSubmit canonicalJSON (lit "now")
          (loadCredentialsFromStorage canonicalJSON storedEntryPage).page).page) :=
  ⟨⟨rfl, ((storage_snapshot canonicalJSON (fun xs => canonicalJSON_roundtrip (.array xs))
      filledPage (Or.inl rfl)).1 _ (Reachable.submit (lit "now") Reachable.load)).1⟩,
   ⟨rfl, ((storage_snapshot canonicalJSON (fun xs => canonicalJSON_roundtrip (.array xs))
      storedEntryPage
      (Or.inr ⟨canonicalJSON.stringify
          (.array [.record (recordOf (lit "11/4/2026, 10:00:00 PM") filledPage)]),
        .array [.record (recordOf (lit "11/4/2026, 10:00:00 PM") filledPage)], rfl,
        List.cons_ne_nil _ _, canonicalJSON_roundtrip _⟩)).1 _
      (Reachable.submit (lit "now") Reachable.load)).1⟩⟩

/-- C4, as stated, fails. With the empty string as entry, load completes
without a fault, the in-memory list is empty, and the entry is present but is
neither the serialization of the list nor parseable to it. With the entry
`{oops`, load raises a fault and leaves the same mismatch. With the entry
`null`, load sets the in-memory value to null, and a submission with four
valid fields ends in the exception of `push`: no record, no storage write. -/
theorem storage_snapshot_blank_counterexample :
    (Reachable canonicalJSON blankEntryPage
        (loadCredentialsFromStorage canonicalJSON blankEntryPage).page ∧
      (loadCredentialsFromStorage canonicalJSON blankEntryPage).fault = false ∧
      (loadCredentialsFromStorage canonicalJSON blankEntryPage).page.storedCredentials =
        .array [] ∧
      (loadCredentialsFromStorage canonicalJSON blankEntryPage).page.localStorage =
        some (lit "") ∧
      canonicalJSON.parse (lit "") = none ∧
      canonicalJSON.stringify (.array []) ≠ lit "" ∧
      ¬ Snapshot canonicalJSON (loadCredentialsFromStorage canonicalJSON blankEntryPage).page) ∧
    (Reachable canonicalJSON malformedEntryPage
        (loadCredentialsFromStorage canonicalJSON malformedEntryPage).page ∧
      (loadCredentialsFromStorage canonicalJSON malformedEntryPage).page.storedCredentials =
        .array [] ∧
      (loadCredentialsFromStorage canonicalJSON malformedEntryPage).page.localStorage =
        some (lit "\x7boops") ∧
      ¬ Snapshot canonicalJSON
        (loadCredentialsFromStorage canonicalJSON malformedEntryPage).page) ∧
    ((loadCredentialsFromStorage canonicalJSON nullEntryPage).fault = false ∧
      (loadCredentialsFromStorage canonicalJSON nullEntryPage).page.storedCredentials =
        .other .null ∧
      allValid (loadCredentialsFromStorage canonicalJSON nullEntryPage).page = true ∧
      (handleFormSubmit canonicalJSON (lit "now")
        (loadCredentialsFromStorage canonicalJSON nullEntryPage).page).fault = true ∧
      (handleFormSubmit canonicalJSON (lit "now")
        (loadCredentialsFromStorage canonicalJSON nullEntryPage).page).page.storedCredentials =
          .other .null ∧
      (handleFormSubmit canonicalJSON (lit "now")
        (loadCredentialsFromStorage canonicalJSON nullEntryPage).page).page.localStorage =
          some (lit "null") ∧
      (handleFormSubmit canonicalJSON (lit "now")
        (loadCredentialsFromStorage canonicalJSON nullEntryPage).page).page.trace = []) := by
  refine ⟨⟨Reachable.load, by decide, by decide, by decide, by decide, by decide, ?_⟩,
    ⟨Reachable.load, by decide, by decide, ?_⟩,
    ⟨by decide, by decide, by decide, by decide, by decide, by decide, by decide⟩⟩
  · intro h
    have := h (lit "") (by decide)
    revert this
    decide
  · intro h
    have := h (lit "\x7boops") (by decide)
    revert this
    decide

end Veloce
